import Mathlib

/-!
Verification of the hybrid PyMuPDF + OCR chunking system
(`hybrid_chunking.py`, `databricks_hybrid_chunking.py`).

Strings are modelled as Lean `String`s (lists of characters); Python regular
expressions are translated pattern-by-pattern into explicit scanning functions
over `List Char`.  Each scanning function carries a comment naming the source
pattern it embeds; greedy quantifiers over a character class followed by a
character outside that class reduce to maximal-run scans, and bounded
quantifiers (`{1,4}` etc.) are translated by trying the candidate lengths in
the engine's greedy order.  Character classes are modelled over ASCII, which
covers the configured patterns and keywords.  Python floats appearing in the
source are modelled as exact rationals (`ℚ`); the one float-truncation
expression (`int(x * 1.3)`) is modelled as `13 * x / 10` in `Nat` (see
`tokenEstimate`).
-/

/-- ASCII digit, Python regex `\d` (ASCII fragment). -/
def isDigitChar (c : Char) : Bool := '0' ≤ c && c ≤ '9'

/-- Python whitespace for `str.strip`, `str.split` and regex `\s`
(ASCII fragment): space, tab, newline, carriage return, vertical tab,
form feed. -/
def isSpaceChar (c : Char) : Bool :=
  c = ' ' || c = '\t' || c = '\n' || c = '\r' || c = '\x0b' || c = '\x0c'

/-- Python regex `\w` (ASCII fragment): letters, digits, underscore. -/
def isWordChar (c : Char) : Bool :=
  ('a' ≤ c && c ≤ 'z') || ('A' ≤ c && c ≤ 'Z') || isDigitChar c || c = '_'

/-- Python `str.strip()` on a character list: drop whitespace at both ends. -/
def stripChars (cs : List Char) : List Char :=
  ((cs.dropWhile isSpaceChar).reverse.dropWhile isSpaceChar).reverse

/-- Python `str.strip()`. -/
def stripStr (s : String) : String := String.mk (stripChars s.data)

/-- Python `str.split()` (no argument): whitespace-run separated words,
empty words dropped.  `cur` is the word currently being accumulated,
in reverse. -/
def wordsAux : List Char → List Char → List (List Char)
  | [], cur => if cur.isEmpty then [] else [cur.reverse]
  | c :: rest, cur =>
    if isSpaceChar c then
      if cur.isEmpty then wordsAux rest [] else cur.reverse :: wordsAux rest []
    else wordsAux rest (c :: cur)

/-- Python `s.split()` as a list of words. -/
def splitWords (s : String) : List (List Char) := wordsAux s.data []

/-- Python `' '.join(parts)`. -/
def joinSpace (parts : List String) : String := String.intercalate " " parts

/-- Python `str.lower()` (ASCII fragment). -/
def lowerStr (s : String) : String := String.mk (s.data.map Char.toLower)

/-- `pat` occurs at the start of `cs` (case-sensitive literal). -/
def litAt : List Char → List Char → Bool
  | [], _ => true
  | _ :: _, [] => false
  | p :: ps, c :: cs => p = c && litAt ps cs

/-- Python `pat in s` substring test. -/
def containsSub (hay pat : List Char) : Bool :=
  match hay with
  | [] => litAt pat []
  | _ :: rest => litAt pat hay || containsSub rest pat

/-- `re.search` driver: try an anchored matcher at every suffix. -/
def searchSuffixes (p : List Char → Bool) : List Char → Bool
  | [] => p []
  | c :: rest => p (c :: rest) || searchSuffixes p rest

/-- `re.search` driver for patterns containing word boundaries `\b`:
try the anchored matcher at every suffix, threading the character just
before the suffix (`none` at the start of the string). -/
def searchWithPrev (p : Option Char → List Char → Bool) :
    Option Char → List Char → Bool
  | prev, [] => p prev []
  | prev, c :: rest => p prev (c :: rest) || searchWithPrev p (some c) rest

/-- Consume a case-sensitive literal, returning the remainder. -/
def pLit : List Char → List Char → Option (List Char)
  | [], cs => some cs
  | _ :: _, [] => none
  | p :: ps, c :: cs => if p = c then pLit ps cs else none

/-- Consume a case-insensitive literal (for `re.IGNORECASE`). -/
def pLitCI : List Char → List Char → Option (List Char)
  | [], cs => some cs
  | _ :: _, [] => none
  | p :: ps, c :: cs => if p.toLower = c.toLower then pLitCI ps cs else none

/-- Consume one expected character. -/
def pChar (x : Char) : List Char → Option (List Char)
  | [] => none
  | c :: cs => if c = x then some cs else none

/-- Regex `\s+` followed by a non-whitespace pattern: requires at least one
whitespace character and consumes the maximal whitespace run (greedy `+`
over a class disjoint from what follows never backtracks). -/
def pWsPlus (cs : List Char) : Option (List Char) :=
  if cs.head?.any isSpaceChar then some (cs.dropWhile isSpaceChar) else none

/-- Regex `\d+` followed by a non-digit pattern: at least one digit,
maximal run. -/
def pDigitsPlus (cs : List Char) : Option (List Char) :=
  if cs.head?.any isDigitChar then some (cs.dropWhile isDigitChar) else none

/-- Regex `\w+` followed by a non-word pattern: at least one word character,
maximal run. -/
def pWordPlus (cs : List Char) : Option (List Char) :=
  if cs.head?.any isWordChar then some (cs.dropWhile isWordChar) else none

/-- Regex `\d{n}` (exact repetition, no backtracking freedom). -/
def pExactDigits (n : Nat) (cs : List Char) : Option (List Char) :=
  if (cs.take n).length = n && (cs.take n).all isDigitChar then
    some (cs.drop n)
  else none

/-- Word boundary `\b` before a word character: the previous character,
if any, is not a word character. -/
def nonWordBefore : Option Char → Bool
  | none => true
  | some c => !isWordChar c

/-- Word boundary `\b` after a word character: the next character,
if any, is not a word character. -/
def boundaryAfter : List Char → Bool
  | [] => true
  | c :: _ => !isWordChar c

/-- `\s+\d+` — at least one whitespace then at least one digit
(tail shared by several citation patterns). -/
def wsThenDigit (cs : List Char) : Bool :=
  match pWsPlus cs with
  | some r => r.head?.any isDigitChar
  | none => false

/-! ### Legal citation patterns (`legal_patterns` in `_is_valid_footnote_pymupdf`,
and the individual searches in `_calculate_footnote_confidence`).
All are used via case-sensitive `re.search`. -/

/-- Anchored `P-\d+:` — witness references. -/
def witnessAt : List Char → Bool
  | 'P' :: '-' :: rest =>
    (rest.head?.any isDigitChar) && ((rest.dropWhile isDigitChar).head? = some ':')
  | _ => false

/-- `re.search(r'P-\d+:', content)`. -/
def searchWitnessRef (s : String) : Bool := searchSuffixes witnessAt s.data

/-- Anchored `T-\d+` — transcript references. -/
def transcriptAt : List Char → Bool
  | 'T' :: '-' :: d :: _ => isDigitChar d
  | _ => false

/-- `re.search(r'T-\d+', content)`. -/
def searchTranscriptRef (s : String) : Bool := searchSuffixes transcriptAt s.data

/-- Anchored `CAR-` — document references. -/
def carAt : List Char → Bool
  | 'C' :: 'A' :: 'R' :: '-' :: _ => true
  | _ => false

/-- `re.search(r'CAR-', content)`. -/
def searchCarRef (s : String) : Bool := searchSuffixes carAt s.data

/-- Anchored `ICC-` — case references. -/
def iccAt : List Char → Bool
  | 'I' :: 'C' :: 'C' :: '-' :: _ => true
  | _ => false

/-- `re.search(r'ICC-', content)`. -/
def searchIccRef (s : String) : Bool := searchSuffixes iccAt s.data

/-- Anchored `para\.?\s+\d+` — paragraph references.  The optional dot is
greedy; when the next character is `'.'` the dotless alternative would
require `\s` to match `'.'` and fails, so the two branches never overlap. -/
def paraRefAt (cs : List Char) : Bool :=
  match pLit ['p', 'a', 'r', 'a'] cs with
  | some rest =>
    (match rest with
     | '.' :: r => wsThenDigit r
     | r => wsThenDigit r)
  | none => false

/-- `re.search(r'para\.?\s+\d+', content)`. -/
def searchParaRef (s : String) : Bool := searchSuffixes paraRefAt s.data

/-- Anchored `p\.\s+\d+` — page references. -/
def pageRefAt : List Char → Bool
  | 'p' :: '.' :: r => wsThenDigit r
  | _ => false

/-- `re.search(r'p\.\s+\d+', content)`. -/
def searchPageRef (s : String) : Bool := searchSuffixes pageRefAt s.data

/-- Anchored `lines?\s+\d+` — line references.  The optional `s` is greedy;
if present it is consumed (the backtrack branch would need `\s` to match
`'s'` and fails). -/
def lineRefAt (cs : List Char) : Bool :=
  match pLit ['l', 'i', 'n', 'e'] cs with
  | some rest =>
    (match rest with
     | 's' :: r => wsThenDigit r
     | r => wsThenDigit r)
  | none => false

/-- `re.search(r'lines?\s+\d+', content)`. -/
def searchLineRef (s : String) : Bool := searchSuffixes lineRefAt s.data

/-- Anchored `Article\s+\d+` — article references. -/
def articleAt (cs : List Char) : Bool :=
  match pLit ['A', 'r', 't', 'i', 'c', 'l', 'e'] cs with
  | some rest => wsThenDigit rest
  | none => false

/-- `re.search(r'Article\s+\d+', content)`. -/
def searchArticleRef (s : String) : Bool := searchSuffixes articleAt s.data

/-- Anchored `Rule\s+\d+` — rule references. -/
def ruleAt (cs : List Char) : Bool :=
  match pLit ['R', 'u', 'l', 'e'] cs with
  | some rest => wsThenDigit rest
  | none => false

/-- `re.search(r'Rule\s+\d+', content)`. -/
def searchRuleRef (s : String) : Bool := searchSuffixes ruleAt s.data

/-- `any(re.search(pattern, content) for pattern in legal_patterns)`, in the
declared order of `legal_patterns`. -/
def matchesAnyLegal (s : String) : Bool :=
  searchWitnessRef s || searchTranscriptRef s || searchCarRef s ||
  searchIccRef s || searchParaRef s || searchPageRef s ||
  searchLineRef s || searchArticleRef s || searchRuleRef s

/-! ### Date patterns (`date_patterns` in the configuration), searched with
`re.IGNORECASE` in `_is_valid_footnote_pymupdf`. -/

/-- Anchored `\b(19|20)\d{2}\b` — years.  The leading `\b` is checked via the
previous character; digits are unaffected by `IGNORECASE`. -/
def yearAt (prev : Option Char) : List Char → Bool
  | a :: b :: c :: d :: rest =>
    nonWordBefore prev &&
    ((a = '1' && b = '9') || (a = '2' && b = '0')) &&
    isDigitChar c && isDigitChar d && boundaryAfter rest
  | _ => false

/-- `re.search(r'\b(19|20)\d{2}\b', content, re.IGNORECASE)`. -/
def searchYear (s : String) : Bool := searchWithPrev yearAt none s.data

/-- The twelve month-name literals of the second date pattern, in declared
alternation order. -/
def monthNames : List (List Char) :=
  ["January".data, "February".data, "March".data, "April".data,
   "May".data, "June".data, "July".data, "August".data,
   "September".data, "October".data, "November".data, "December".data]

/-- Consume one month name, case-insensitively, first alternative wins. -/
def monthAt (cs : List Char) : Option (List Char) :=
  monthNames.foldr (fun m acc => (pLitCI m cs).orElse (fun _ => acc)) none

/-- Tail `\s+<month>\s+\d{4}\b` of the long date pattern. -/
def tailMonthDate (cs : List Char) : Bool :=
  match pWsPlus cs with
  | some r1 =>
    (match monthAt r1 with
     | some r2 =>
       (match pWsPlus r2 with
        | some r3 =>
          (match pExactDigits 4 r3 with
           | some r4 => boundaryAfter r4
           | none => false)
        | none => false)
     | none => false)
  | none => false

/-- Anchored `\b\d{1,2}\s+(January|…|December)\s+\d{4}\b`.  The greedy
`\d{1,2}` tries two digits, then one. -/
def monthDateAt (prev : Option Char) (cs : List Char) : Bool :=
  nonWordBefore prev &&
  ((match pExactDigits 2 cs with
    | some r => tailMonthDate r
    | none => false) ||
   (match pExactDigits 1 cs with
    | some r => tailMonthDate r
    | none => false))

/-- `re.search` of the month-name date pattern, `re.IGNORECASE`. -/
def searchMonthDate (s : String) : Bool := searchWithPrev monthDateAt none s.data

/-- Tail `\s+\w+\s+\d{4}\b` of the generic date pattern. -/
def tailWordDate (cs : List Char) : Bool :=
  match pWsPlus cs with
  | some r1 =>
    (match pWordPlus r1 with
     | some r2 =>
       (match pWsPlus r2 with
        | some r3 =>
          (match pExactDigits 4 r3 with
           | some r4 => boundaryAfter r4
           | none => false)
        | none => false)
     | none => false)
  | none => false

/-- Anchored `\b\d{1,2}\s+\w+\s+\d{4}\b` — "23 February 1975"-shaped. -/
def wordDateAt (prev : Option Char) (cs : List Char) : Bool :=
  nonWordBefore prev &&
  ((match pExactDigits 2 cs with
    | some r => tailWordDate r
    | none => false) ||
   (match pExactDigits 1 cs with
    | some r => tailWordDate r
    | none => false))

/-- `re.search` of the generic date pattern, `re.IGNORECASE`. -/
def searchWordDate (s : String) : Bool := searchWithPrev wordDateAt none s.data

/-- The loop `for date_pattern in date_patterns: if re.search(...): return
False` — any of the three date patterns matches. -/
def matchesAnyDate (s : String) : Bool :=
  searchYear s || searchMonthDate s || searchWordDate s

/-! ### Header/footer patterns (`header_patterns` in the configuration),
used via case-sensitive `re.search` both in `extract_footnotes_pymupdf`
and in `clean_headers_footers`. -/

/-- Anchored `ICC-01/14-01/18-2784-Red\s+\d{2}-\d{2}-\d{4}\s+\d+/\d+\s+T`. -/
def headerDocAt (cs : List Char) : Bool :=
  match pLit "ICC-01/14-01/18-2784-Red".data cs with
  | some r0 =>
    (match pWsPlus r0 with
     | some r1 =>
       (match (pExactDigits 2 r1).bind (pChar '-') with
        | some r2 =>
          (match (pExactDigits 2 r2).bind (pChar '-') with
           | some r3 =>
             (match pExactDigits 4 r3 with
              | some r4 =>
                (match (pWsPlus r4).bind pDigitsPlus with
                 | some r5 =>
                   (match (pChar '/' r5).bind pDigitsPlus with
                    | some r6 =>
                      (match pWsPlus r6 with
                       | some r7 => (pChar 'T' r7).isSome
                       | none => false)
                    | none => false)
                 | none => false)
              | none => false)
           | none => false)
        | none => false)
     | none => false)
  | none => false

/-- Anchored `No\.\s+ICC-01/14-01/18\s+\d+/\d+\s+\d{2}\s+\w+\s+\d{4}`. -/
def headerNoAt (cs : List Char) : Bool :=
  match (pLit "No.".data cs).bind pWsPlus with
  | some r0 =>
    (match pLit "ICC-01/14-01/18".data r0 with
     | some r1 =>
       (match (pWsPlus r1).bind pDigitsPlus with
        | some r2 =>
          (match (pChar '/' r2).bind pDigitsPlus with
           | some r3 =>
             (match (pWsPlus r3).bind (pExactDigits 2) with
              | some r4 =>
                (match (pWsPlus r4).bind pWordPlus with
                 | some r5 =>
                   (match (pWsPlus r5).bind (pExactDigits 4) with
                    | some _ => true
                    | none => false)
                 | none => false)
              | none => false)
           | none => false)
        | none => false)
     | none => false)
  | none => false

/-- `re.search(r'^\d+/\d+$', line)` — since `^`/`$` anchor to the whole
string (no MULTILINE), this is a full-string match `\d+/\d+`. -/
def matchesPageNumberLine (line : String) : Bool :=
  match (pDigitsPlus line.data).bind (pChar '/') with
  | some r => (pDigitsPlus r) = some []
  | none => false

/-- `re.search(r'^No\.\s+ICC-', line)` — `^` anchors to the string start. -/
def matchesNoIccStart (line : String) : Bool :=
  ((pLit "No.".data line.data).bind pWsPlus).bind (pLit "ICC-".data) |>.isSome

/-- `any(re.search(pattern, line) for pattern in header_patterns)`. -/
def matchesAnyHeader (line : String) : Bool :=
  searchSuffixes headerDocAt line.data ||
  searchSuffixes headerNoAt line.data ||
  matchesPageNumberLine line ||
  matchesNoIccStart line

/-! ### Structural-number matchers. -/

/-- `re.match(self.config["footnote_pattern"], line)` with pattern
`^(\d{1,3})\s+`: the greedy `\d{1,3}` tries three, two, then one digit,
each followed by a whitespace character.  On success, returns the captured
digit group and `line[match.end():].strip()`; since `\s+` consumes the
maximal whitespace run and `strip` removes leading whitespace anyway, the
content equals the stripped remainder after the digits. -/
def tryNumWs : List Nat → List Char → Option (String × String)
  | [], _ => none
  | m :: ms, cs =>
    if (cs.take m).length = m && (cs.take m).all isDigitChar &&
        (cs.drop m).head?.any isSpaceChar then
      some (String.mk (cs.take m), String.mk (stripChars (cs.drop m)))
    else tryNumWs ms cs

/-- Footnote start match `^(\d{1,3})\s+` on a line, returning
`(number, stripped remainder)`. -/
def matchFootnoteStart (line : String) : Option (String × String) :=
  tryNumWs [3, 2, 1] line.data

/-- One greedy attempt of `^(\d{m})\.` (`requireWs = false`) or
`^(\d{m})\.\s+` (`requireWs = true`): `m` digits, a dot, and for the
`\s+` variants one whitespace character after the dot.  Returns the captured
digits and `line[match.end():].strip()`; for both variants the latter equals
the stripped remainder after the dot. -/
def tryNumDot (requireWs : Bool) (m : Nat) (cs : List Char) :
    Option (String × String) :=
  if (cs.take m).length = m && (cs.take m).all isDigitChar then
    match cs.drop m with
    | '.' :: r2 =>
      if requireWs then
        if r2.head?.any isSpaceChar then
          some (String.mk (cs.take m), String.mk (stripChars r2))
        else none
      else some (String.mk (cs.take m), String.mk (stripChars r2))
    | _ => none
  else none

/-- Greedy bounded repetition: try the candidate digit counts in the
engine's order (longest first). -/
def tryNumDotLens (requireWs : Bool) : List Nat → List Char → Option (String × String)
  | [], _ => none
  | m :: ms, cs =>
    match tryNumDot requireWs m cs with
    | some r => some r
    | none => tryNumDotLens requireWs ms cs

/-- The loop over `paragraph_number_patterns`
(`^(\d{1,4})\.\s+` then `^(\d{1,4})\.`), first match wins. -/
def matchParaPrimary (line : String) : Option (String × String) :=
  match tryNumDotLens true [4, 3, 2, 1] line.data with
  | some r => some r
  | none => tryNumDotLens false [4, 3, 2, 1] line.data

/-- The loop over `high_number_patterns`
(`^(\d{4})\.\s+` then `^(\d{3,4})\.\s+`), first match wins. -/
def matchParaHigh (line : String) : Option (String × String) :=
  match tryNumDotLens true [4] line.data with
  | some r => some r
  | none => tryNumDotLens true [4, 3] line.data

/-- The combined matcher of `extract_paragraphs_ocr`: the primary patterns
are tried first, the high-number patterns only when all primary patterns
fail. -/
def matchParaFull (line : String) : Option (String × String) :=
  match matchParaPrimary line with
  | some r => some r
  | none => matchParaHigh line

/-! ### Data model (`@dataclass` definitions in `hybrid_chunking.py`). -/

/-- `Footnote` dataclass.  `referenced_paragraphs` defaults to the empty
list via `__post_init__`; `confidence` (a Python float built from exact
decimal increments) is modelled as a rational. -/
structure Footnote where
  number : String
  content : String
  page : Nat
  confidence : ℚ
  detection_method : String
  referenced_paragraphs : List String
deriving DecidableEq

/-- `LegalParagraph` dataclass. -/
structure LegalParagraph where
  number : String
  content : String
  page : Nat
  section_type : String
  token_count : Nat
  footnote_references : List String
  start_line : Nat
  end_line : Nat
  extraction_method : String
  confidence : ℚ
deriving DecidableEq

/-- The `metadata` dictionary of a `SemanticChunk`: one shape for paragraph
chunks, one for footnote chunks. -/
inductive ChunkMeta where
  | paraMeta (extraction_method : String) (confidence : ℚ) (section_type : String)
  | fnMeta (detection_method : String) (confidence : ℚ)
deriving DecidableEq

/-- `SemanticChunk` dataclass. -/
structure SemanticChunk where
  chunk_id : String
  content : String
  chunk_type : String
  page_range : Nat × Nat
  paragraph_numbers : List String
  footnote_numbers : List String
  token_count : Nat
  metadata : ChunkMeta
deriving DecidableEq

/-! ### Validation and scoring. -/

/-- `_is_valid_footnote_pymupdf(content, footnote_num)`.  (The
`footnote_num` argument is unused by the source body but kept in the
signature.) -/
def is_valid_footnote_pymupdf (content : String) (_footnote_num : String) : Bool :=
  if content.length < 10 then false
  else if matchesAnyDate content then false
  else matchesAnyLegal content

/-- `_calculate_footnote_confidence(content)`: sequential `score += c`
updates, each guarded by one pattern search, rendered as a sum of guarded
increments; finally `min(score, 1.0)`. -/
def calculate_footnote_confidence (content : String) : ℚ :=
  let score : ℚ :=
    (if searchWitnessRef content then (0.4 : ℚ) else 0) +
    (if searchTranscriptRef content then (0.3 : ℚ) else 0) +
    (if searchCarRef content then (0.2 : ℚ) else 0) +
    (if searchIccRef content then (0.2 : ℚ) else 0) +
    (if searchParaRef content then (0.1 : ℚ) else 0) +
    (if searchPageRef content then (0.1 : ℚ) else 0) +
    (if searchArticleRef content then (0.1 : ℚ) else 0) +
    (if searchRuleRef content then (0.1 : ℚ) else 0) +
    (if content.length > 50 then (0.1 : ℚ) else 0)
  min score 1

/-- `re.findall(r'(\d{1,3})', content)` in `_extract_footnote_references`:
scan left to right; at each digit the greedy `\d{1,3}` consumes up to three
consecutive digits, and scanning resumes after the consumed digits, so a
longer digit run is cut into consecutive pieces of at most three digits. -/
def extractRefsAux : List Char → List String
  | [] => []
  | c :: rest =>
    if isDigitChar c then
      match rest with
      | d :: rest2 =>
        if isDigitChar d then
          match rest2 with
          | e :: rest3 =>
            if isDigitChar e then String.mk [c, d, e] :: extractRefsAux rest3
            else String.mk [c, d] :: extractRefsAux (e :: rest3)
          | [] => [String.mk [c, d]]
        else String.mk [c] :: extractRefsAux (d :: rest2)
      | [] => [String.mk [c]]
    else extractRefsAux rest

/-- `_extract_footnote_references(content)`. -/
def extract_footnote_references (content : String) : List String :=
  extractRefsAux content.data

/-- `int(len(content.split()) * 1.3)`: Python truncates the float product
toward zero.  For every word count below `2 ^ 49` the float computation
`w * 1.3` stays within the same unit interval as the exact product
`13 * w / 10` (the relative error of `1.3` and of the product rounding is
about `10 ^ -16`, far below the distance `1 / 10` to the nearest integer),
so the truncation equals `⌊13 * w / 10⌋`, i.e. `Nat` division. -/
def tokenEstimate (content : String) : Nat :=
  13 * (splitWords content).length / 10

/-- `_is_valid_paragraph(content)`: at least 50 characters, then either a
legal keyword occurs (case-insensitively) or the content has at least 10
whitespace-delimited words. -/
def is_valid_paragraph (content : String) : Bool :=
  if content.length < 50 then false
  else if (["chamber", "court", "evidence", "statute", "article"] :
      List String).any (fun k => containsSub (lowerStr content).data k.data) then
    true
  else decide ((splitWords content).length ≥ 10)

/-! ### Footnote Recognizer (`extract_footnotes_pymupdf`).

The external text-layer capability `page.get_text("text").split('\n')` is
modelled as the input line list; the page argument `page_num` is the
0-based index, stored in records as `page_num + 1`. -/

/-- One iteration of the line loop of `extract_footnotes_pymupdf`.
State: the open footnote (if any) and the emitted footnotes so far. -/
def fnStep (pageNum : Nat) (st : Option Footnote × List Footnote)
    (rawLine : String) : Option Footnote × List Footnote :=
  let line := stripStr rawLine
  if line = "" then st
  else if matchesAnyHeader line then st
  else
    match matchFootnoteStart line with
    | some (num, content) =>
      let acc := match st.1 with
        | some f => st.2 ++ [f]
        | none => st.2
      if is_valid_footnote_pymupdf content num then
        (some ⟨num, content, pageNum + 1,
              calculate_footnote_confidence content, "pymupdf", []⟩, acc)
      else (none, acc)
    | none =>
      match st.1 with
      | some f =>
        if line.length > 10 then
          (some { f with content := f.content ++ " " ++ line }, st.2)
        else st
      | none => st

/-- `extract_footnotes_pymupdf(page_num)` over the page's text-layer
lines. -/
def extract_footnotes_pymupdf (pageNum : Nat) (lines : List String) :
    List Footnote :=
  let st := lines.foldl (fnStep pageNum) (none, [])
  match st.1 with
  | some f => st.2 ++ [f]
  | none => st.2

/-! ### Paragraph Recognizer (`extract_paragraphs_ocr`).

The scanner is parametrized by the number matcher so that the full matcher
(primary patterns then high-number fallback) can be compared with the
primary-only matcher. -/

/-- The mutable locals of `extract_paragraphs_ocr`: the accumulating line
buffer, the current paragraph number, the set of numbers already finalized
on this page, the emitted paragraphs, and the current line index
(`line_num` of `enumerate`). -/
structure ParaState where
  curPara : List String
  curNum : Option String
  seen : List String
  acc : List LegalParagraph
  idx : Nat
deriving DecidableEq

/-- The "save previous paragraph" block of `extract_paragraphs_ocr`,
shared by the match branch (`endIdx` = current `line_num`) and the
end-of-page close (`endIdx = len(lines)`).  Returns the updated emitted
list and seen set.  `start_line = line_num - len(current_para)` is `Nat`
subtraction; every buffered line was consumed at an earlier index, so the
Python value is non-negative. -/
def emitIfValid (pageNum endIdx : Nat) (st : ParaState) :
    List LegalParagraph × List String :=
  match st.curNum with
  | some n =>
    if st.curPara ≠ [] ∧ n ∉ st.seen then
      let content := stripStr (joinSpace st.curPara)
      if is_valid_paragraph content then
        (st.acc ++ [⟨n, content, pageNum + 1, "main_text",
            tokenEstimate content, extract_footnote_references content,
            endIdx - st.curPara.length, endIdx, "hybrid_ocr", (0.8 : ℚ)⟩],
         st.seen ++ [n])
      else (st.acc, st.seen)
    else (st.acc, st.seen)
  | none => (st.acc, st.seen)

/-- One iteration of the line loop of `extract_paragraphs_ocr`. -/
def paraStep (matcher : String → Option (String × String)) (pageNum : Nat)
    (st : ParaState) (line : String) : ParaState :=
  match matcher line with
  | some (newNum, rest) =>
    let es := emitIfValid pageNum st.idx st
    if newNum ∉ es.2 then
      ⟨[rest], some newNum, es.2, es.1, st.idx + 1⟩
    else
      ⟨[], none, es.2, es.1, st.idx + 1⟩
  | none =>
    if st.curPara ≠ [] then
      { st with curPara := st.curPara ++ [line], idx := st.idx + 1 }
    else { st with idx := st.idx + 1 }

/-- The line scan of `extract_paragraphs_ocr`, generic in the number
matcher. -/
def extractParagraphsWith (matcher : String → Option (String × String))
    (lines : List String) (pageNum : Nat) : List LegalParagraph :=
  let st := lines.foldl (paraStep matcher pageNum) ⟨[], none, [], [], 0⟩
  (emitIfValid pageNum lines.length st).1

/-- `extract_paragraphs_ocr(lines, page_num)`. -/
def extract_paragraphs_ocr (lines : List String) (pageNum : Nat) :
    List LegalParagraph :=
  extractParagraphsWith matchParaFull lines pageNum

/-- The same scan restricted to the primary `paragraph_number_patterns`
(the high-number fallback removed), for the refinement claim. -/
def extractParagraphsPrimaryOnly (lines : List String) (pageNum : Nat) :
    List LegalParagraph :=
  extractParagraphsWith matchParaPrimary lines pageNum

/-! ### Header/Footer Filter and Page Processor. -/

/-- `clean_headers_footers(lines)`. -/
def clean_headers_footers (lines : List String) : List String :=
  lines.filter (fun line => !matchesAnyHeader line)

/-- `process_page(page_num)`.  The two external page sources are passed as
arguments: `textLines` is the text-layer capability used for footnotes, and
`ocrLines` the OCR capability used for paragraphs.  `extract_text_with_ocr`
returns `[]` when OCR extraction raises, so an OCR failure reaches this
function as the empty line list. -/
def process_page (pageNum : Nat) (textLines ocrLines : List String) :
    List LegalParagraph × List Footnote :=
  let footnotes := extract_footnotes_pymupdf pageNum textLines
  if ocrLines.isEmpty then ([], footnotes)
  else
    let cleaned := clean_headers_footers ocrLines
    (extract_paragraphs_ocr cleaned pageNum, footnotes)

/-! ### Chunk Assembler (`create_semantic_chunks`). -/

/-- Ascending insertion into a sorted list. -/
def insertSortedNat (n : Nat) : List Nat → List Nat
  | [] => [n]
  | m :: ms => if n ≤ m then n :: m :: ms else m :: insertSortedNat n ms

/-- Ascending sort of a list of naturals. -/
def sortNats (l : List Nat) : List Nat := l.foldr insertSortedNat []

/-- `sorted(paragraphs_by_page.keys())`: the distinct pages that own at
least one paragraph, in ascending order.  (The grouping dictionary's keys
are exactly the pages occurring in `self.paragraphs`.) -/
def sortedParagraphPages (ps : List LegalParagraph) : List Nat :=
  sortNats ((ps.map (fun p => p.page)).dedup)

/-- The paragraph-chunk constructor inside `create_semantic_chunks`. -/
def paraChunk (cid : Nat) (p : LegalParagraph) : SemanticChunk :=
  ⟨"para_" ++ toString cid, p.content, "paragraph", (p.page, p.page),
   [p.number], p.footnote_references, p.token_count,
   ChunkMeta.paraMeta p.extraction_method p.confidence p.section_type⟩

/-- The footnote-chunk constructor inside `create_semantic_chunks`. -/
def fnChunk (cid : Nat) (f : Footnote) : SemanticChunk :=
  ⟨"footnote_" ++ toString cid, f.content, "footnote", (f.page, f.page),
   [], [f.number], tokenEstimate f.content,
   ChunkMeta.fnMeta f.detection_method f.confidence⟩

/-- Emit one paragraph chunk per paragraph, threading the chunk counter. -/
def emitParaChunks (cid : Nat) : List LegalParagraph → List SemanticChunk × Nat
  | [] => ([], cid)
  | p :: rest =>
    let r := emitParaChunks (cid + 1) rest
    (paraChunk cid p :: r.1, r.2)

/-- Emit one footnote chunk per footnote, threading the chunk counter. -/
def emitFnChunks (cid : Nat) : List Footnote → List SemanticChunk × Nat
  | [] => ([], cid)
  | f :: rest =>
    let r := emitFnChunks (cid + 1) rest
    (fnChunk cid f :: r.1, r.2)

/-- The page loop of `create_semantic_chunks`: for each page (ascending)
the page's paragraph chunks (`paragraphs_by_page[page]`, which lists the
paragraphs of that page in input order) followed by the page's footnote
chunks (`[f for f in self.footnotes if f.page == page_num]`). -/
def chunksForPages (ps : List LegalParagraph) (fs : List Footnote) :
    List Nat → Nat → List SemanticChunk
  | [], _ => []
  | pg :: rest, cid =>
    let pc := emitParaChunks cid (ps.filter (fun p => p.page = pg))
    let fc := emitFnChunks pc.2 (fs.filter (fun f => f.page = pg))
    pc.1 ++ fc.1 ++ chunksForPages ps fs rest fc.2

/-- `create_semantic_chunks()` over the aggregated paragraph and footnote
collections; the chunk counter starts at 1. -/
def create_semantic_chunks (ps : List LegalParagraph) (fs : List Footnote) :
    List SemanticChunk :=
  chunksForPages ps fs (sortedParagraphPages ps) 1

/-! ### Distributed Orchestrator (`databricks_hybrid_chunking.py`). -/

/-- One element of the result list assembled by `_process_page_partition`:
every page of the partition contributes exactly one entry, carrying the
page number and the success flag (content fields are aggregated separately
and play no role in the partition bookkeeping).  Page-level processing
itself happens behind the external PDF/OCR capability; the per-page
`try/except` and the partition-level `except` both append a failure entry
for each affected page, so the outcome of a page is abstracted as a
predicate `outcome`. -/
structure PageEntry where
  page : Nat
  success : Bool
deriving DecidableEq

/-- `_process_page_partition(page_range)`: one entry per page, in order. -/
def process_page_partition (outcome : Nat → Bool) (pageRange : List Nat) :
    List PageEntry :=
  pageRange.map (fun p => ⟨p, outcome p⟩)

/-- `[lst[i:i+k] for i in range(0, len(lst), k)]`: contiguous slices of
width `k`; `range(0, n, k)` has `⌈n / k⌉` elements (for `k ≥ 1`), at
offsets `i * k`. -/
def chunkPages (k : Nat) (l : List Nat) : List (List Nat) :=
  (List.range ((l.length + k - 1) / k)).map (fun i => (l.drop (i * k)).take k)

/-- Concatenating map (`flatMap` of the partition RDD). -/
def flatMapL (f : α → List β) : List α → List β
  | [] => []
  | a :: l => f a ++ flatMapL f l

/-- The partitioning and aggregation skeleton of
`process_document_distributed`: `start_page = skip_first_pages + 1`,
`pages_to_process = range(start_page, total_pages + 1)`, partitions of
`pages_per_partition` pages, one collected entry per page. -/
def process_document_distributed (outcome : Nat → Bool)
    (total_pages skip_first_pages pages_per_partition : Nat) :
    List PageEntry :=
  let start_page := skip_first_pages + 1
  let pages := List.range' start_page (total_pages + 1 - start_page)
  flatMapL (process_page_partition outcome)
    (chunkPages pages_per_partition pages)

/-! ### Spec-side definitions, for comparison with the source-derived
functions. -/

/-- Modelled from the spec's words: `round(word_count × 1.3)` — the nearest
integer to `13 * w / 10` (ties rounded up; the only tie cases are
`w ≡ 5 (mod 10)`, which no comparison below depends on). -/
def specRoundTokens (w : Nat) : Nat := (13 * w + 5) / 10

/-- Maximal digit runs of a character list (each run extended as far as
possible, so no run is embedded in a longer one).  `cur` is the run being
accumulated, in reverse. -/
def digitRunsAux : List Char → List Char → List (List Char)
  | [], cur => if cur.isEmpty then [] else [cur.reverse]
  | c :: rest, cur =>
    if isDigitChar c then digitRunsAux rest (c :: cur)
    else if cur.isEmpty then digitRunsAux rest []
    else cur.reverse :: digitRunsAux rest []

/-- Modelled from the spec's words: "all standalone digit runs of 1–3
digits found in the content (a digit run not embedded in a longer digit
run)" — the maximal digit runs whose length is between one and three. -/
def standalone_digit_runs (content : String) : List String :=
  ((digitRunsAux content.data []).filter
    (fun r => 1 ≤ r.length && r.length ≤ 3)).map String.mk

/-! ### Claim C2 — footnote validation is a three-way conjunction. -/

/-- **C2.**  `_is_valid_footnote_pymupdf` is the conjunction of "at least
10 characters", "matches no configured date pattern", and "matches at
least one legal-citation pattern"; in particular content of exactly 9
characters is always rejected, and content matching a date pattern is
always rejected. -/
theorem footnote_validation_conjunction :
    ∀ content num : String,
      (is_valid_footnote_pymupdf content num =
        (decide (10 ≤ content.length) && !matchesAnyDate content &&
          matchesAnyLegal content)) ∧
      (content.length = 9 → is_valid_footnote_pymupdf content num = false) ∧
      (matchesAnyDate content = true →
        is_valid_footnote_pymupdf content num = false) := by
  intro c n
  refine ⟨?_, ?_, ?_⟩
  · by_cases h10 : c.length < 10 <;>
      by_cases hd : matchesAnyDate c <;>
        simp [is_valid_footnote_pymupdf, h10, hd, Nat.not_lt.mp,
          Nat.not_le.mpr, Nat.not_lt]
  · intro h9
    simp [is_valid_footnote_pymupdf, h9]
  · intro hd
    by_cases h10 : c.length < 10 <;> simp [is_valid_footnote_pymupdf, h10, hd]

/-- Witness for C2: a 9-character candidate containing a page-reference
citation is rejected, and a candidate containing both an `ICC-` citation
and a `"23 February 1975"`-style date is rejected. -/
theorem footnote_validation_conjunction_witness :
    is_valid_footnote_pymupdf "P-1: p. 4" "1" = false ∧
    is_valid_footnote_pymupdf "ICC- 23 February 1975 xx" "2" = false :=
  ⟨(footnote_validation_conjunction "P-1: p. 4" "1").2.1 (by decide),
   (footnote_validation_conjunction "ICC- 23 February 1975 xx" "2").2.2
     (by decide)⟩

/-! ### Claim C5 — confidence increments, bounds, and the 0.7 floor. -/

/-- **C5.**  `_calculate_footnote_confidence` always lies in `[0, 1]`, and
content matching both the witness-reference and the transcript-reference
patterns scores at least `0.4 + 0.3 = 0.7`. -/
theorem footnote_confidence_bounds :
    ∀ content : String,
      0 ≤ calculate_footnote_confidence content ∧
      calculate_footnote_confidence content ≤ 1 ∧
      (searchWitnessRef content = true → searchTranscriptRef content = true →
        (0.7 : ℚ) ≤ calculate_footnote_confidence content) := by
  intro c
  have hnn : ∀ (b : Prop) [Decidable b] (x : ℚ), 0 ≤ x →
      0 ≤ (if b then x else 0) := by
    intro b _ x hx
    split
    · exact hx
    · exact le_refl 0
  refine ⟨?_, ?_, ?_⟩
  · unfold calculate_footnote_confidence
    refine le_min ?_ (by norm_num)
    repeat' apply add_nonneg
    all_goals apply hnn _ _ (by norm_num)
  · exact min_le_right _ _
  · intro hw ht
    unfold calculate_footnote_confidence
    simp only [hw, ht, if_true]
    refine le_min ?_ (by norm_num)
    have h1 : 0 ≤ (if searchCarRef c = true then (0.2 : ℚ) else 0) :=
      hnn _ _ (by norm_num)
    have h2 : 0 ≤ (if searchIccRef c = true then (0.2 : ℚ) else 0) :=
      hnn _ _ (by norm_num)
    have h3 : 0 ≤ (if searchParaRef c = true then (0.1 : ℚ) else 0) :=
      hnn _ _ (by norm_num)
    have h4 : 0 ≤ (if searchPageRef c = true then (0.1 : ℚ) else 0) :=
      hnn _ _ (by norm_num)
    have h5 : 0 ≤ (if searchArticleRef c = true then (0.1 : ℚ) else 0) :=
      hnn _ _ (by norm_num)
    have h6 : 0 ≤ (if searchRuleRef c = true then (0.1 : ℚ) else 0) :=
      hnn _ _ (by norm_num)
    have h7 : 0 ≤ (if c.length > 50 then (0.1 : ℚ) else 0) :=
      hnn _ _ (by norm_num)
    have : (0.7 : ℚ) = 0.4 + 0.3 := by norm_num
    linarith

/-- Witness for C5: content carrying both a witness reference and a
transcript reference scores at least `0.7`. -/
theorem footnote_confidence_bounds_witness :
    (0.7 : ℚ) ≤ calculate_footnote_confidence "P-12: T-34" :=
  (footnote_confidence_bounds "P-12: T-34").2.2 (by decide) (by decide)

/-! ### Claim C8 — empty OCR output degrades to `(no paragraphs,
text-layer footnotes)`. -/

/-- **C8.**  When the OCR source yields no lines (in particular when OCR
extraction failed and was recovered as the empty list), `process_page`
returns the empty paragraph list paired with the footnotes extracted from
the text layer. -/
theorem process_page_empty_ocr :
    ∀ (pageNum : Nat) (textLines : List String),
      process_page pageNum textLines [] =
        ([], extract_footnotes_pymupdf pageNum textLines) := by
  intro pn tl
  rfl

/-! ### Invariants of the paragraph scan. -/

/-- A `foldl` step that preserves a predicate preserves it over the whole
fold. -/
theorem foldlPreserves {σ α : Type _} (f : σ → α → σ) (P : σ → Prop)
    (hstep : ∀ s a, P s → P (f s a)) :
    ∀ (l : List α) (s : σ), P s → P (l.foldl f s) := by
  intro l
  induction l with
  | nil => intro s hs; exact hs
  | cons a l ih =>
    intro s hs
    exact ih _ (hstep s a hs)

/-- Scan invariant: emitted paragraph numbers are distinct and recorded in
`seen`, and every emitted paragraph's derived fields are the configured
functions of its content. -/
def ParaInv (st : ParaState) : Prop :=
  (st.acc.map (fun p => p.number)).Nodup ∧
  (∀ p ∈ st.acc, p.number ∈ st.seen) ∧
  (∀ p ∈ st.acc, p.token_count = tokenEstimate p.content ∧
    p.footnote_references = extract_footnote_references p.content)

/-- The "save previous paragraph" block preserves the invariant: the
emission guard `current_num not in seen_numbers` together with
`seen_numbers.add` keeps numbers distinct, and a freshly built
`LegalParagraph` carries the derived fields of its content. -/
theorem emitIfValid_inv (pg e : Nat) (st : ParaState) (h : ParaInv st) :
    ((emitIfValid pg e st).1.map (fun p => p.number)).Nodup ∧
    (∀ p ∈ (emitIfValid pg e st).1, p.number ∈ (emitIfValid pg e st).2) ∧
    (∀ p ∈ (emitIfValid pg e st).1,
      p.token_count = tokenEstimate p.content ∧
      p.footnote_references = extract_footnote_references p.content) := by
  obtain ⟨hnd, hseen, hfields⟩ := h
  unfold emitIfValid
  cases hcn : st.curNum with
  | none => exact ⟨hnd, hseen, hfields⟩
  | some n =>
    dsimp only
    by_cases hcond : st.curPara ≠ [] ∧ n ∉ st.seen
    · rw [if_pos hcond]
      by_cases hval : is_valid_paragraph (stripStr (joinSpace st.curPara)) = true
      · rw [if_pos hval]
        have hnotin : n ∉ st.acc.map (fun p => p.number) := by
          intro hmem
          obtain ⟨p, hp, hpn⟩ := List.mem_map.mp hmem
          exact hcond.2 (hpn ▸ hseen p hp)
        refine ⟨?_, ?_, ?_⟩
        · rw [List.map_append]
          refine List.Nodup.append hnd (List.nodup_singleton n) ?_
          intro x hx hx2
          simp only [List.map_cons, List.map_nil, List.mem_singleton] at hx2
          exact hnotin (hx2 ▸ hx)
        · intro p hp
          rcases List.mem_append.mp hp with hp1 | hp2
          · exact List.mem_append_left _ (hseen p hp1)
          · simp only [List.mem_singleton] at hp2
            subst hp2
            exact List.mem_append_right _ (by simp)
        · intro p hp
          rcases List.mem_append.mp hp with hp1 | hp2
          · exact hfields p hp1
          · simp only [List.mem_singleton] at hp2
            subst hp2
            exact ⟨rfl, rfl⟩
      · rw [if_neg hval]
        exact ⟨hnd, hseen, hfields⟩
    · rw [if_neg hcond]
      exact ⟨hnd, hseen, hfields⟩

/-- Each line-loop iteration preserves the scan invariant. -/
theorem paraStep_inv (matcher : String → Option (String × String))
    (pg : Nat) (st : ParaState) (line : String) (h : ParaInv st) :
    ParaInv (paraStep matcher pg st line) := by
  have hemit := emitIfValid_inv pg st.idx st h
  unfold paraStep
  cases hm : matcher line with
  | none =>
    by_cases hc : st.curPara ≠ []
    · rw [if_pos hc]
      exact h
    · rw [if_neg hc]
      exact h
  | some pr =>
    obtain ⟨n1, r1⟩ := pr
    dsimp only
    by_cases hn : n1 ∉ (emitIfValid pg st.idx st).2
    · rw [if_pos hn]
      exact ⟨hemit.1, hemit.2.1, hemit.2.2⟩
    · rw [if_neg hn]
      exact ⟨hemit.1, hemit.2.1, hemit.2.2⟩

/-- The whole scan satisfies the invariant conclusions. -/
theorem extractParagraphsWith_inv
    (matcher : String → Option (String × String))
    (lines : List String) (pg : Nat) :
    ((extractParagraphsWith matcher lines pg).map
        (fun p => p.number)).Nodup ∧
    (∀ p ∈ extractParagraphsWith matcher lines pg,
      p.token_count = tokenEstimate p.content ∧
      p.footnote_references = extract_footnote_references p.content) := by
  have hinit : ParaInv ⟨[], none, [], [], 0⟩ := by
    refine ⟨List.nodup_nil, ?_, ?_⟩ <;> intro p hp <;> exact absurd hp
      (List.not_mem_nil p)
  have hfold := foldlPreserves (paraStep matcher pg) ParaInv
    (paraStep_inv matcher pg) lines ⟨[], none, [], [], 0⟩ hinit
  have hfin := emitIfValid_inv pg lines.length
    (lines.foldl (paraStep matcher pg) ⟨[], none, [], [], 0⟩) hfold
  exact ⟨hfin.1, hfin.2.2⟩

/-! ### Claim C1 — no duplicate paragraph numbers per page. -/

/-- **C1.**  For every page and input line sequence, the paragraph numbers
emitted by `extract_paragraphs_ocr` are pairwise distinct: a number is
finalized at most once per page scan (the guard `current_num not in
seen_numbers` plus `seen_numbers.add` on emission). -/
theorem paragraph_numbers_distinct_per_page :
    ∀ (lines : List String) (pageNum : Nat),
      ((extract_paragraphs_ocr lines pageNum).map
        (fun p => p.number)).Nodup := by
  intro lines pageNum
  exact (extractParagraphsWith_inv matchParaFull lines pageNum).1

/-! ### Claim C3 — the token-count formula. -/

/-- A page whose single paragraph has exactly two words (50+ characters and
the keyword "chamber", so it passes validation). -/
def c3Lines : List String :=
  ["1. chamberaaaaaaaaaaaaaaaaaaaaaaaaaaaaaaaaaaaaaaaaaaa bb"]

/-- **C3, counterexample.**  The source computes
`int(len(content.split()) * 1.3)`, which truncates; for a two-word
paragraph it stores `int(2.6) = 2`, while `round(2 × 1.3) = 3` as the
claim states.  So the emitted `token_count` is not `round(word_count ×
1.3)`. -/
theorem token_count_round_counterexample :
    (extract_paragraphs_ocr c3Lines 0).map
      (fun p => (p.token_count, specRoundTokens (splitWords p.content).length)) =
      [(2, 3)] ∧ (2 : Nat) ≠ 3 := by
  constructor
  · decide
  · decide

/-- **C3, amended.**  For every emitted `LegalParagraph`, `token_count`
equals `⌊word_count × 1.3⌋` (floor, not round), where `word_count` is the
number of whitespace-delimited words of the content. -/
theorem token_count_floor :
    ∀ (lines : List String) (pageNum : Nat),
      (extract_paragraphs_ocr lines pageNum).all
        (fun p => decide
          (p.token_count = 13 * (splitWords p.content).length / 10)) = true := by
  intro lines pageNum
  rw [List.all_eq_true]
  intro p hp
  exact decide_eq_true
    ((extractParagraphsWith_inv matchParaFull lines pageNum).2 p hp).1

/-! ### Claim C6 — footnote-reference extraction. -/

/-- A page whose single paragraph contains the four-digit run `1234`. -/
def c6Lines : List String :=
  ["7. The chamber notes 1234 aaaaaaaaaaaaaaaaaaaaaaaaaaaaaa"]

/-- **C6, counterexample.**  `re.findall(r'(\d{1,3})', content)` does not
skip digit runs longer than three digits: the run `1234` yields the two
matches `"123"` and `"4"`, whereas the claimed "standalone digit runs of
1–3 digits" reading yields nothing for it.  The emitted
`footnote_references` therefore differ from the claimed value. -/
theorem footnote_references_standalone_counterexample :
    (extract_paragraphs_ocr c6Lines 0).map
      (fun p => (p.footnote_references, standalone_digit_runs p.content)) =
      [(["123", "4"], [])] ∧ (["123", "4"] : List String) ≠ [] := by
  constructor
  · decide
  · decide

/-- **C6, amended.**  For every emitted `LegalParagraph`,
`footnote_references` equals the left-to-right greedy decomposition
computed by `_extract_footnote_references`: each maximal digit run of the
content is cut into consecutive pieces of at most three digits (runs of up
to three digits appear whole; longer runs contribute several pieces). -/
theorem footnote_references_greedy :
    ∀ (lines : List String) (pageNum : Nat),
      (extract_paragraphs_ocr lines pageNum).all
        (fun p => decide
          (p.footnote_references = extract_footnote_references p.content)) =
        true := by
  intro lines pageNum
  rw [List.all_eq_true]
  intro p hp
  exact decide_eq_true
    ((extractParagraphsWith_inv matchParaFull lines pageNum).2 p hp).2

/-! ### Claim C4 — chunk assembly. -/

/-- Projection used to state the assembly order: a chunk's type tag and
content. -/
def chunkProj (c : SemanticChunk) : String × String := (c.chunk_type, c.content)

/-- `emitParaChunks` emits exactly one chunk per paragraph, in order,
independently of the counter. -/
theorem emitParaChunks_proj :
    ∀ (l : List LegalParagraph) (cid : Nat),
      (emitParaChunks cid l).1.map chunkProj =
        l.map (fun p => ("paragraph", p.content)) := by
  intro l
  induction l with
  | nil => intro cid; rfl
  | cons p rest ih =>
    intro cid
    simp only [emitParaChunks, List.map_cons, ih]
    rfl

/-- `emitFnChunks` emits exactly one chunk per footnote, in order,
independently of the counter. -/
theorem emitFnChunks_proj :
    ∀ (l : List Footnote) (cid : Nat),
      (emitFnChunks cid l).1.map chunkProj =
        l.map (fun f => ("footnote", f.content)) := by
  intro l
  induction l with
  | nil => intro cid; rfl
  | cons f rest ih =>
    intro cid
    simp only [emitFnChunks, List.map_cons, ih]
    rfl

/-- The page loop emits, for each listed page, that page's paragraph chunks
followed by that page's footnote chunks. -/
theorem chunksForPages_proj (ps : List LegalParagraph) (fs : List Footnote) :
    ∀ (pages : List Nat) (cid : Nat),
      (chunksForPages ps fs pages cid).map chunkProj =
        flatMapL (fun pg =>
          (ps.filter (fun p => p.page = pg)).map
            (fun p => ("paragraph", p.content)) ++
          (fs.filter (fun f => f.page = pg)).map
            (fun f => ("footnote", f.content))) pages := by
  intro pages
  induction pages with
  | nil => intro cid; rfl
  | cons pg rest ih =>
    intro cid
    simp only [chunksForPages, flatMapL, List.map_append, ih,
      emitParaChunks_proj, emitFnChunks_proj, List.append_assoc]

/-- A paragraph on page 1 and a footnote on page 2 (a page that owns no
paragraph). -/
def c4Para : LegalParagraph :=
  ⟨"45", "The Chamber finds that the accused bears responsibility", 1,
   "main_text", 10, [], 0, 3, "hybrid_ocr", (0.8 : ℚ)⟩

/-- A footnote on page 2, where no paragraph was recognized. -/
def c4Fn : Footnote :=
  ⟨"9", "P-1: witness statement, para. 45", 2, (0.5 : ℚ), "pymupdf", []⟩

/-- **C4, counterexample.**  `create_semantic_chunks` iterates only over
`sorted(paragraphs_by_page.keys())` — the pages owning at least one
paragraph — so the footnote on page 2 produces no chunk: the input holds
one footnote, the output holds zero footnote chunks.  This refutes "every
footnote in the input collection gives rise to a chunk". -/
theorem chunk_per_footnote_counterexample :
    ((create_semantic_chunks [c4Para] [c4Fn]).filter
      (fun c => c.chunk_type = "footnote")).length = 0 ∧
    ([c4Fn] : List Footnote).length = 1 := by
  constructor
  · decide
  · decide

/-- **C4, amended.**  `create_semantic_chunks` emits exactly one chunk per
paragraph and one chunk per footnote *whose page owns at least one
paragraph*, never merging entities: for each page owning a paragraph, in
ascending page order, the page's paragraph chunks appear in recognition
order followed by the page's footnote chunks in input order; footnotes on
pages without any recognized paragraph are dropped. -/
theorem chunk_assembly_order :
    ∀ (ps : List LegalParagraph) (fs : List Footnote),
      (create_semantic_chunks ps fs).map chunkProj =
        flatMapL (fun pg =>
          (ps.filter (fun p => p.page = pg)).map
            (fun p => ("paragraph", p.content)) ++
          (fs.filter (fun f => f.page = pg)).map
            (fun f => ("footnote", f.content))) (sortedParagraphPages ps) := by
  intro ps fs
  exact chunksForPages_proj ps fs (sortedParagraphPages ps) 1

/-! ### Claim C7 — partition completeness of the orchestrator. -/

/-- Collected partition results carry exactly the partition pages, in
order, regardless of per-page outcomes. -/
theorem flatMapL_partition_pages :
    ∀ (outcome : Nat → Bool) (parts : List (List Nat)),
      (flatMapL (process_page_partition outcome) parts).map
        (fun e => e.page) = flatMapL (fun l => l) parts := by
  intro outcome parts
  induction parts with
  | nil => rfl
  | cons part rest ih =>
    simp only [flatMapL, List.map_append, ih, process_page_partition,
      List.map_map]
    congr 1
    exact List.map_id part

/-- **C7.**  For `total_pages = 106`, `skip_first_pages = 6`,
`pages_per_partition = 50`, the orchestrator forms exactly two contiguous
partitions covering pages 7–56 and 57–106, and — whatever the per-page
outcomes — the aggregated result holds exactly 100 page entries
(succeeded and failed combined) whose page numbers are exactly 7..106, so
every page of the range appears in the result set. -/
theorem partition_completeness :
    ∀ outcome : Nat → Bool,
      chunkPages 50 (List.range' 7 100) =
        [List.range' 7 50, List.range' 57 50] ∧
      (process_document_distributed outcome 106 6 50).map (fun e => e.page) =
        List.range' 7 100 ∧
      (process_document_distributed outcome 106 6 50).length = 100 := by
  intro outcome
  have hpages : (process_document_distributed outcome 106 6 50).map
      (fun e => e.page) = List.range' 7 100 := by
    show (flatMapL (process_page_partition outcome)
      (chunkPages 50 (List.range' 7 (106 + 1 - (6 + 1))))).map
        (fun e => e.page) = List.range' 7 100
    rw [flatMapL_partition_pages]
    decide
  refine ⟨by decide, hpages, ?_⟩
  have := congrArg List.length hpages
  simpa using this

/-! ### Claim C9 — footnote confidence and validation are fixed at the
opening line. -/

/-- A footnote's confidence and validation verdict stem from some initial
content — the remainder of the numbered line that opened it — of which the
final content is an extension by appended continuation text. -/
def ConfidenceFromOpening (f : Footnote) : Prop :=
  ∃ init : String,
    is_valid_footnote_pymupdf init f.number = true ∧
    f.confidence = calculate_footnote_confidence init ∧
    ∃ rest : List Char, f.content.data = init.data ++ rest

/-- Scan invariant of `extract_footnotes_pymupdf`: both the already
emitted footnotes and the currently open one satisfy
`ConfidenceFromOpening`. -/
def FnInv (st : Option Footnote × List Footnote) : Prop :=
  (∀ f ∈ st.2, ConfidenceFromOpening f) ∧
  (∀ f, st.1 = some f → ConfidenceFromOpening f)

/-- Each line-loop iteration preserves the footnote-scan invariant:
opening a footnote establishes the property with the opening content, and
a continuation line only appends to `content`. -/
theorem fnStep_inv (pageNum : Nat) (st : Option Footnote × List Footnote)
    (rawLine : String) (h : FnInv st) : FnInv (fnStep pageNum st rawLine) := by
  obtain ⟨hacc, hopen⟩ := h
  unfold fnStep
  by_cases h1 : stripStr rawLine = ""
  · rw [if_pos h1]
    exact ⟨hacc, hopen⟩
  · rw [if_neg h1]
    by_cases h2 : matchesAnyHeader (stripStr rawLine) = true
    · rw [if_pos h2]
      exact ⟨hacc, hopen⟩
    · rw [if_neg h2]
      cases hm : matchFootnoteStart (stripStr rawLine) with
      | some pr =>
        obtain ⟨num, content⟩ := pr
        dsimp only
        have haccAll : ∀ f ∈ (match st.1 with
            | some g => st.2 ++ [g]
            | none => st.2), ConfidenceFromOpening f := by
          cases ho : st.1 with
          | some g =>
            intro f hf
            rcases List.mem_append.mp hf with hf1 | hf2
            · exact hacc f hf1
            · simp only [List.mem_singleton] at hf2
              subst hf2
              exact hopen f ho
          | none => exact hacc
        by_cases hv : is_valid_footnote_pymupdf content num = true
        · rw [if_pos hv]
          refine ⟨haccAll, ?_⟩
          intro f hf
          have hFf := Option.some.inj hf
          subst hFf
          exact ⟨content, hv, rfl, [], (List.append_nil content.data).symm⟩
        · rw [if_neg hv]
          refine ⟨haccAll, ?_⟩
          intro f hf
          exact absurd hf (by simp)
      | none =>
        cases ho : st.1 with
        | some f =>
          dsimp only
          by_cases hl : (stripStr rawLine).length > 10
          · rw [if_pos hl]
            refine ⟨hacc, ?_⟩
            intro g hg
            have hfg := Option.some.inj hg
            subst hfg
            obtain ⟨init, hval, hconf, rest, hdata⟩ := hopen f ho
            refine ⟨init, hval, hconf,
              rest ++ " ".data ++ (stripStr rawLine).data, ?_⟩
            simp only [String.data_append, hdata, List.append_assoc]
          · rw [if_neg hl]
            exact ⟨hacc, hopen⟩
        | none =>
          dsimp only
          exact ⟨hacc, hopen⟩

/-- Every footnote emitted by the scan satisfies
`ConfidenceFromOpening`. -/
theorem extract_footnotes_pymupdf_opening (pageNum : Nat)
    (lines : List String) :
    ∀ f ∈ extract_footnotes_pymupdf pageNum lines, ConfidenceFromOpening f := by
  have hinit : FnInv (none, []) := by
    constructor
    · intro f hf
      exact absurd hf (List.not_mem_nil f)
    · intro f hf
      exact absurd hf (by simp)
  have hfold := foldlPreserves (fnStep pageNum) FnInv (fnStep_inv pageNum)
    lines (none, []) hinit
  unfold extract_footnotes_pymupdf
  dsimp only
  cases ho : (lines.foldl (fnStep pageNum) (none, [])).1 with
  | some f =>
    intro g hg
    rcases List.mem_append.mp hg with hg1 | hg2
    · exact hfold.1 g hg1
    · simp only [List.mem_singleton] at hg2
      subst hg2
      exact hfold.2 g ho
  | none => exact hfold.1

/-- A page where a valid footnote `12` is opened with a low-scoring
paragraph-reference content and then extended by a continuation line that
introduces a witness reference and a date. -/
def c9Lines : List String :=
  ["12 para. 45 statement xx", "P-0123: seen on 23 February 1975"]

/-- **C9.**  A footnote's confidence and validation verdict are computed
only from the content of the numbered line that opened it: every emitted
footnote satisfies `ConfidenceFromOpening` (its confidence is
`_calculate_footnote_confidence` of some initial content the final content
extends, and validation passed on that initial content); and concretely,
appending continuation lines leaves `confidence` at the opening value
(`0.1`) while recomputing on the final content would give `0.6`, and the
appended text is never re-checked against the date patterns (the final
content matches a date pattern yet the footnote is emitted). -/
theorem footnote_confidence_from_opening_line :
    (∀ (pageNum : Nat) (lines : List String),
      ∀ f ∈ extract_footnotes_pymupdf pageNum lines,
        ConfidenceFromOpening f) ∧
    ((extract_footnotes_pymupdf 0 c9Lines).map
      (fun f => (f.confidence, calculate_footnote_confidence f.content,
        matchesAnyDate f.content)) = [((0.1 : ℚ), (0.6 : ℚ), true)]) := by
  constructor
  · exact extract_footnotes_pymupdf_opening
  · with_unfolding_all rfl

/-- Witness for C9: the footnote emitted from `c9Lines` satisfies
`ConfidenceFromOpening` (the theorem's universal part applied at a
concrete input). -/
theorem footnote_confidence_from_opening_line_witness :
    ConfidenceFromOpening
      ⟨"12", "para. 45 statement xx P-0123: seen on 23 February 1975", 1,
        (0.1 : ℚ), "pymupdf", []⟩ :=
  footnote_confidence_from_opening_line.1 0 c9Lines _ (by
    rw [show extract_footnotes_pymupdf 0 c9Lines =
      [⟨"12", "para. 45 statement xx P-0123: seen on 23 February 1975", 1,
        (0.1 : ℚ), "pymupdf", []⟩] from by with_unfolding_all rfl]
    exact List.mem_singleton.mpr rfl)

/-! ### Claim C10 — the high-number fallback is unreachable. -/

/-- Every high-number pattern match is already a primary-pattern match with
the same captured number and content: `^(\d{4})\.\s+` and
`^(\d{3,4})\.\s+` are the `m = 4` and `m ∈ {4, 3}` attempts of
`^(\d{1,4})\.\s+`, the first primary pattern, tried in the same greedy
order. -/
theorem high_match_implies_primary (line : String) (r : String × String)
    (h : matchParaHigh line = some r) : matchParaPrimary line = some r := by
  cases h4 : tryNumDot true 4 line.data with
  | some v =>
    simp only [matchParaHigh, matchParaPrimary, tryNumDotLens, h4] at h ⊢
    exact h
  | none =>
    cases h3 : tryNumDot true 3 line.data with
    | some v =>
      simp only [matchParaHigh, matchParaPrimary, tryNumDotLens, h4, h3] at h ⊢
      exact h
    | none =>
      simp only [matchParaHigh, tryNumDotLens, h4, h3] at h
      exact Option.noConfusion h

/-- The combined matcher coincides with the primary-only matcher. -/
theorem matchParaFull_eq_primary : ∀ line, matchParaFull line = matchParaPrimary line := by
  intro line
  unfold matchParaFull
  cases hp : matchParaPrimary line with
  | some r => rfl
  | none =>
    cases hh : matchParaHigh line with
    | none => rfl
    | some r =>
      exact absurd (high_match_implies_primary line r hh) (by rw [hp]; simp)

/-- **C10.**  Under the default configuration the high-number fallback is
unreachable: whenever a `high_number_patterns` regex matches at the start
of a line, the primary `paragraph_number_patterns` already match with the
same captured number (and the same remaining content), and the scan using
only the primary patterns emits exactly the same paragraphs as the full
scan with the fallback. -/
theorem high_number_fallback_redundant :
    (∀ (line : String) (r : String × String),
      matchParaHigh line = some r → matchParaPrimary line = some r) ∧
    (∀ (lines : List String) (pageNum : Nat),
      extract_paragraphs_ocr lines pageNum =
        extractParagraphsPrimaryOnly lines pageNum) := by
  constructor
  · exact high_match_implies_primary
  · intro lines pageNum
    unfold extract_paragraphs_ocr extractParagraphsPrimaryOnly
    rw [funext matchParaFull_eq_primary]

/-- Witness for C10: on the line `"4848. The chamber"` the high-number
patterns match and the primary patterns produce the same capture. -/
theorem high_number_fallback_redundant_witness :
    matchParaPrimary "4848. The chamber" = some ("4848", "The chamber") :=
  high_number_fallback_redundant.1 "4848. The chamber"
    ("4848", "The chamber") (by decide)
